import Mathlib

/-!
Verification of the motility_analysis Profile engine (src/motility_analysis/profile.py).

The Track, Position and geometry primitives are external collaborators of the
repository (spec section 1): the engine consumes their scalar statistics and
delta-t displacement dictionaries as given data.  They are therefore modelled
as structure fields.  Python floats are modelled as rationals; a float field
that can be NaN is modelled by Flt, a field that can also be None by PyVal.
The external numeric routines math.log, math.exp and scipy.stats.linregress
are parameters of the embedding (structure Analysis): the source only composes
their results.  Paths on which the Python code raises are modelled with
Except.
-/

namespace Motility

/-- A Python float that is a number or NaN, never None.  Track-level scalar
statistics in the source are such floats (np.isnan is applied to them). -/
inductive Flt where
  | nan : Flt
  | num : ℚ → Flt
deriving DecidableEq

/-- A Python numeric attribute of a Position: None, NaN, or a number. -/
inductive PyVal where
  | null : PyVal
  | nan : PyVal
  | num : ℚ → PyVal
deriving DecidableEq

/-- A Python float that may be inf; the type of the max_dt argument and of the
msd_time_cutoff field of calculate_msd. -/
inductive PyFloat where
  | inf : PyFloat
  | val : ℚ → PyFloat
deriving DecidableEq

deriving instance DecidableEq for Except

/-- math.isnan / np.isnan on a track statistic. -/
def Flt.isnan : Flt → Bool
  | Flt.nan => true
  | Flt.num _ => false

/-- Python comparison stat >= v; False when the statistic is NaN. -/
def Flt.geQ : Flt → ℚ → Bool
  | Flt.nan, _ => false
  | Flt.num q, v => decide (v ≤ q)

/-- Python comparison stat < v; False when the statistic is NaN. -/
def Flt.ltQ : Flt → ℚ → Bool
  | Flt.nan, _ => false
  | Flt.num q, v => decide (q < v)

/-- Python truthiness of a float statistic: NaN is truthy, zero is falsy. -/
def Flt.pyTruthy : Flt → Bool
  | Flt.nan => true
  | Flt.num q => decide (q ≠ 0)

/-- Python x is None test on a Position attribute. -/
def PyVal.isnull : PyVal → Bool
  | PyVal.null => true
  | _ => false

/-- math.isnan on a Position attribute (only called on non-None values). -/
def PyVal.isnan : PyVal → Bool
  | PyVal.nan => true
  | _ => false

/-- A single observation of a track (the external Position class).
Coordinates may be undefined (None); per-position kinematic values may be
None or NaN.  Timestamps are taken as defined rationals in this model. -/
structure Position where
  x : Option ℚ
  y : Option ℚ
  z : Option ℚ
  time_s : ℚ
  speed : PyVal
  turn : PyVal
  roll : PyVal
  instant_fmi : PyVal
  total_displacement_squared : ℚ
  meets_arrest_coeff_threshold : Bool
deriving DecidableEq

/-- The external Track class: ordered positions, scalar statistics, and the
delta-t to squared-displacements dictionary produced by the external series
generator (spec: every pair of observations i < j, bucketed by their time
difference).  The dictionary is given as an association list whose keys are
the distinct keys of the Python dict. -/
structure Track where
  positions : List Position
  displacement : Flt
  duration_min : Flt
  length : Flt
  meander : Flt
  broken : Bool
  median_speed : Flt
  median_turn : Flt
  arrest_coefficient : Flt
  deltaT_displacements_sq : List (ℚ × List ℚ)
deriving DecidableEq

/-- A Profile owns its filtered list of tracks. -/
structure Profile where
  tracks : List Track
deriving DecidableEq

/-! ## Profile construction (source lines 50-96) -/

/-- The (excluded, before) counts printed by one trim step. -/
structure FilterLog where
  excluded : ℕ
  before : ℕ
deriving DecidableEq

/-- One optional trim step of Profile construction: it runs only when the
argument is truthy (a nonzero number, mirroring the Python falsiness of None,
False and 0), keeps the tracks satisfying pred, and logs the excluded count
out of the count before the step. -/
def filterStep (ts : List Track) (param : Option ℚ) (pred : Track → ℚ → Bool) :
    List Track × Option FilterLog :=
  match param with
  | none => (ts, none)
  | some v =>
    if v = 0 then (ts, none)
    else
      let kept := ts.filter (fun t => pred t v)
      (kept, some { excluded := ts.length - kept.length, before := ts.length })

/-- The outcome of Profile.__init__ filtering: the retained tracks and the
per-step exclusion reports (the observability counts the source prints). -/
structure InitResult where
  profile : Profile
  displacement_log : Option FilterLog
  observations_log : Option FilterLog
  duration_log : Option FilterLog
  arrest_log : Option FilterLog
deriving DecidableEq

/-- Profile.__init__ track filtering (source lines 62-88): the four optional
trims in this order, then dropping tracks whose median speed is NaN, then
those whose median turn is NaN.  Summary statistic lists and the optional
teleport analysis are modelled separately. -/
def profileInit (tracks : List Track)
    (trim_displacement trim_observations trim_duration trim_arrest_coefficient : Option ℚ) :
    InitResult :=
  let s1 := filterStep tracks trim_displacement (fun t v => t.displacement.geQ v)
  let s2 := filterStep s1.1 trim_observations (fun t v => decide (v ≤ (t.positions.length : ℚ)))
  let s3 := filterStep s2.1 trim_duration (fun t v => t.duration_min.geQ v)
  let s4 := filterStep s3.1 trim_arrest_coefficient (fun t v => t.arrest_coefficient.ltQ v)
  let s5 := s4.1.filter (fun t => !t.median_speed.isnan)
  let s6 := s5.filter (fun t => !t.median_turn.isnan)
  { profile := { tracks := s6 }, displacement_log := s1.2, observations_log := s2.2,
    duration_log := s3.2, arrest_log := s4.2 }

/-! ## Population collation (source lines 132-173) -/

/-- Profile.collate_speeds (source lines 137-139): per-position speeds that are
not None, not NaN, and meet the arrest coefficient threshold. -/
def collate_speeds (pr : Profile) : List PyVal :=
  pr.tracks.flatMap (fun t =>
    (t.positions.filter (fun p =>
      !p.speed.isnull && !p.speed.isnan && p.meets_arrest_coeff_threshold)).map
      (fun p => p.speed))

/-- Profile.collate_turns (source lines 146-148). -/
def collate_turns (pr : Profile) : List PyVal :=
  pr.tracks.flatMap (fun t =>
    (t.positions.filter (fun p =>
      !p.turn.isnull && !p.turn.isnan && p.meets_arrest_coeff_threshold)).map
      (fun p => p.turn))

/-- Profile.collate_instantaneous_fmi (source lines 154-156): unlike speeds and
turns, only the None check and the threshold are applied, with no NaN check. -/
def collate_instantaneous_fmi (pr : Profile) : List PyVal :=
  pr.tracks.flatMap (fun t =>
    (t.positions.filter (fun p =>
      !p.instant_fmi.isnull && p.meets_arrest_coeff_threshold)).map
      (fun p => p.instant_fmi))

/-- Profile.collate_rolls (source lines 160-161): definedness only, no
threshold filter. -/
def collate_rolls (pr : Profile) : List PyVal :=
  pr.tracks.flatMap (fun t =>
    (t.positions.filter (fun p => !p.roll.isnull && !p.roll.isnan)).map
      (fun p => p.roll))

/-- Profile.collate_meanders (source line 165): per-track meanders filtered by
Python truthiness. -/
def collate_meanders (pr : Profile) : List Flt :=
  (pr.tracks.filter (fun t => t.meander.pyTruthy)).map (fun t => t.meander)

/-- Profile.collate_lengths (source line 169). -/
def collate_lengths (pr : Profile) : List Flt :=
  (pr.tracks.filter (fun t => t.length.pyTruthy)).map (fun t => t.length)

/-- Profile.collate_displacements (source line 173). -/
def collate_displacements (pr : Profile) : List Flt :=
  (pr.tracks.filter (fun t => t.displacement.pyTruthy)).map (fun t => t.displacement)

/-- Total number of positions across the retained tracks of a profile. -/
def totalPositions (pr : Profile) : ℕ :=
  (pr.tracks.flatMap (fun t => t.positions)).length

/-! ## Teleport analysis (source lines 201-263) -/

/-- The margin-shrunk estimated imaging volume. -/
structure Box where
  x_low : ℚ
  x_high : ℚ
  y_low : ℚ
  y_high : ℚ
  z_low : ℚ
  z_high : ℚ
deriving DecidableEq

/-- The coordinates collected along one axis (source lines 222-224): the list
comprehension keeps a coordinate only when it is truthy in Python, hence only
defined nonzero values. -/
def coordsBy (f : Position → Option ℚ) (tracks : List Track) : List ℚ :=
  tracks.flatMap (fun t => t.positions.filterMap (fun p =>
    match f p with
    | some v => if v = 0 then none else some v
    | none => none))

/-- Python min of a list; ValueError on the empty list. -/
def pyMin (l : List ℚ) : Except String ℚ :=
  match l with
  | [] => Except.error "ValueError: min of empty sequence"
  | a :: rest => Except.ok (rest.foldl min a)

/-- Python max of a list; ValueError on the empty list. -/
def pyMax (l : List ℚ) : Except String ℚ :=
  match l with
  | [] => Except.error "ValueError: max of empty sequence"
  | a :: rest => Except.ok (rest.foldl max a)

/-- Bounding box estimation with margin shrink (source lines 222-236). -/
def estimate_box (tracks : List Track) (margin : ℚ) : Except String Box := do
  let xmin ← pyMin (coordsBy (fun p => p.x) tracks)
  let xmax ← pyMax (coordsBy (fun p => p.x) tracks)
  let ymin ← pyMin (coordsBy (fun p => p.y) tracks)
  let ymax ← pyMax (coordsBy (fun p => p.y) tracks)
  let zmin ← pyMin (coordsBy (fun p => p.z) tracks)
  let zmax ← pyMax (coordsBy (fun p => p.z) tracks)
  Except.ok
    { x_low := xmin + margin * (xmax - xmin), x_high := xmax - margin * (xmax - xmin),
      y_low := ymin + margin * (ymax - ymin), y_high := ymax - margin * (ymax - ymin),
      z_low := zmin + margin * (zmax - zmin), z_high := zmax - margin * (zmax - zmin) }

/-- inside_imaging_volume (source lines 212-219).  The checks are sequential
with early False returns; comparing an undefined coordinate against a bound is
a Python TypeError. -/
def insideVol (b : Box) (x0 y0 z0 : Option ℚ) : Except String Bool :=
  match x0 with
  | none => Except.error "TypeError: NoneType comparison"
  | some x =>
    if x < b.x_low ∨ b.x_high < x then Except.ok false
    else
      match y0 with
      | none => Except.error "TypeError: NoneType comparison"
      | some y =>
        if y < b.y_low ∨ b.y_high < y then Except.ok false
        else
          match z0 with
          | none => Except.error "TypeError: NoneType comparison"
          | some z =>
            if z < b.z_low ∨ b.z_high < z then Except.ok false
            else Except.ok true

/-- TeleportPoint (source lines 37-48): position data plus a back-reference to
the source track and the start flag. -/
structure TeleportPoint where
  x : Option ℚ
  y : Option ℚ
  z : Option ℚ
  time : ℚ
  track : Track
  start : Bool
deriving DecidableEq

/-- The per-track loop of analyse_teleportations (source lines 247-260),
collecting start-type and end-type teleport points in track order.  A start
point takes the first observation time and x, y but the last observation z,
exactly as in the source. -/
def teleportLoop (b : Box) (end_time : ℚ) :
    List Track → Except String (List TeleportPoint × List TeleportPoint)
  | [] => Except.ok ([], [])
  | t :: rest =>
    match t.positions.head?, t.positions.getLast? with
    | some pstart, some pend => do
      let starts1 ←
        if pstart.time_s ≠ 0 then do
          let ins ← insideVol b pstart.x pstart.y pstart.z
          if ins then
            pure [{ x := pstart.x, y := pstart.y, z := pend.z, time := pstart.time_s,
                    track := t, start := true : TeleportPoint }]
          else pure []
        else pure ([] : List TeleportPoint)
      let ends1 ←
        if pend.time_s < end_time then do
          let ins ← insideVol b pend.x pend.y pend.z
          if ins then
            pure [{ x := pend.x, y := pend.y, z := pend.z, time := pend.time_s,
                    track := t, start := false : TeleportPoint }]
          else pure []
        else pure ([] : List TeleportPoint)
      let prev ← teleportLoop b end_time rest
      Except.ok (starts1 ++ prev.1, ends1 ++ prev.2)
    | _, _ => Except.error "IndexError: positions of empty track"

/-- The data produced by analyse_teleportations. -/
structure TeleportResult where
  box : Box
  end_time : ℚ
  teleport_starts : List TeleportPoint
  teleport_ends : List TeleportPoint
deriving DecidableEq

/-- The last-observation times of all tracks (source line 243); an IndexError
when a track has no positions. -/
def lastTimesOf : List Track → Except String (List ℚ)
  | [] => Except.ok []
  | t :: rest =>
    match t.positions.getLast? with
    | some pos => do
      let prev ← lastTimesOf rest
      Except.ok (pos.time_s :: prev)
    | none => Except.error "IndexError: positions of empty track"

/-- Profile.analyse_teleportations (source lines 201-263): estimate the shrunk
imaging box from the observed coordinates, take the largest last-observation
time as the experiment end, and collect the teleport points. -/
def analyse_teleportations (pr : Profile) (margin : ℚ) : Except String TeleportResult := do
  let b ← estimate_box pr.tracks margin
  let lastTimes ← lastTimesOf pr.tracks
  let end_time ← pyMax lastTimes
  let pts ← teleportLoop b end_time pr.tracks
  Except.ok { box := b, end_time := end_time, teleport_starts := pts.1, teleport_ends := pts.2 }

/-! ## Mean squared displacement (source lines 285-360) -/

/-- One step of the dict accumulation in calculate_msd: if dt is not a key,
initialise it with the empty list, then extend it with the new values.  The
Python dict is modelled as an association list in insertion order. -/
def dictExtend (d : List (ℚ × List ℚ)) (k : ℚ) (vs : List ℚ) : List (ℚ × List ℚ) :=
  if k ∈ d.map Prod.fst then
    d.map (fun kv => if kv.1 = k then (kv.1, kv.2 ++ vs) else kv)
  else
    d ++ [(k, vs)]

/-- Folding one dictionary entry into the accumulator. -/
def dictStep (d : List (ℚ × List ℚ)) (kv : ℚ × List ℚ) : List (ℚ × List ℚ) :=
  dictExtend d kv.1 kv.2

/-- Folding one track of the allT method into the dict (source lines 308-313). -/
def trackIntoDict (d : List (ℚ × List ℚ)) (t : Track) : List (ℚ × List ℚ) :=
  t.deltaT_displacements_sq.foldl dictStep d

/-- Folding one profile of the allT method into the dict. -/
def profileIntoDict (d : List (ℚ × List ℚ)) (p : Profile) : List (ℚ × List ℚ) :=
  p.tracks.foldl trackIntoDict d

/-- The msd_dict of the allT method (source lines 304-313). -/
def computeMsdDict (profiles : List Profile) : List (ℚ × List ℚ) :=
  profiles.foldl profileIntoDict []

/-- The alternative accumulation (source lines 315-322): bucket the running
total_displacement_squared by absolute positive timestamp.  Timestamps are
defined rationals in this model, so the None protection of the source is
vacuous here. -/
def computeTZeroDict (profiles : List Profile) : List (ℚ × List ℚ) :=
  profiles.foldl (fun d p =>
    p.tracks.foldl (fun d t =>
      t.positions.foldl (fun d pos =>
        if 0 < pos.time_s then dictExtend d pos.time_s [pos.total_displacement_squared]
        else d) d) d) []

/-- np.mean, the arithmetic mean.  On the empty list numpy yields NaN; the
claims only meet nonempty pools, where this rational mean is exact. -/
def npMean (l : List ℚ) : ℚ := l.sum / l.length

/-- The Python lookup msd_dict[key]: the value at the first matching key, the
empty list when the key is absent (the source only looks up present keys). -/
def dictGet (d : List (ℚ × List ℚ)) (k : ℚ) : List ℚ :=
  match d with
  | [] => []
  | kv :: rest => if kv.1 = k then kv.2 else dictGet rest k

/-- Python sorted(msd_dict.keys()), ascending. -/
def sortedKeys (d : List (ℚ × List ℚ)) : List ℚ :=
  (d.map Prod.fst).insertionSort (fun a b => a ≤ b)

/-- The method argument of calculate_msd.  The source compares the string
against the literal allT with the Python identity operator. -/
inductive MsdMethod where
  | allT : MsdMethod
  | fromTimeZero : MsdMethod
deriving DecidableEq

/-- The msd list computed when none is supplied (source lines 303-327): sorted
keys paired with the mean of the accumulated values. -/
def computeMsdList (method : MsdMethod) (profiles : List Profile) : List (ℚ × ℚ) :=
  let d :=
    match method with
    | MsdMethod.allT => computeMsdDict profiles
    | MsdMethod.fromTimeZero => computeTZeroDict profiles
  (sortedKeys d).map (fun k => (k, npMean (dictGet d k)))

/-- The external numeric routines used by calculate_msd: math.log, math.exp
and scipy.stats.linregress returning (slope, intercept, r, p, stderr).  The
source only composes their results, so they are parameters of the embedding. -/
structure Analysis where
  log : ℚ → ℚ
  exp : ℚ → ℚ
  linregress : List ℚ → List ℚ → ℚ × ℚ × ℚ × ℚ × ℚ

/-- The dictionary returned by calculate_msd. -/
structure MsdResult where
  msd : List (ℚ × ℚ)
  slope : ℚ
  intercept : ℚ
  r : ℚ
  p : ℚ
  stderr : ℚ
  msd_time_cutoff : PyFloat
  linearPlot : List ℚ
  linearTimes : List ℚ
deriving DecidableEq

/-- The fixed sentinel result (source lines 359-360).  Its msd field is the
literal nested list [[0., 0.]], modelled as the single pair (0, 0). -/
def msdSentinel : MsdResult :=
  { msd := [(0, 0)], slope := 0, intercept := 3/10, r := 0, p := 0, stderr := 0,
    msd_time_cutoff := PyFloat.val 100, linearPlot := [], linearTimes := [] }

/-- The successful regression branch (source lines 344-358): log transform
both axes, ordinary least squares linear regression on the logs, and the
fitted line mapped back to linear space by exponentiation. -/
def regressRecord (A : Analysis) (msdL : List (ℚ × ℚ)) (cutoff : PyFloat) : MsdResult :=
  let times := msdL.map Prod.fst
  let dts_log := times.map A.log
  let msds_log := (msdL.map Prod.snd).map A.log
  let t := A.linregress dts_log msds_log
  { msd := msdL, slope := t.1, intercept := t.2.1, r := t.2.2.1, p := t.2.2.2.1,
    stderr := t.2.2.2.2, msd_time_cutoff := cutoff,
    linearPlot := dts_log.map (fun x => A.exp (x * t.1 + t.2.1)),
    linearTimes := times }

/-- The tail of calculate_msd once the msd list and cutoff are fixed (source
lines 341-360): regress when the list is nonempty and the minima of both the
times and the msd values are positive, otherwise return the sentinel. -/
def regressPhase (A : Analysis) (msdL : List (ℚ × ℚ)) (cutoff : PyFloat) : MsdResult :=
  match msdL with
  | [] => msdSentinel
  | p0 :: rest =>
    if 0 < (rest.map Prod.fst).foldl min p0.1 ∧ 0 < (rest.map Prod.snd).foldl min p0.2 then
      regressRecord A (p0 :: rest) cutoff
    else msdSentinel

/-- Resolution of the msd argument (source line 303): a supplied empty list is
falsy in Python and triggers recomputation exactly like None. -/
def resolveMsd (profiles : List Profile) (msd0 : Option (List (ℚ × ℚ)))
    (method : MsdMethod) : List (ℚ × ℚ) :=
  match msd0 with
  | none => computeMsdList method profiles
  | some l => if l.isEmpty then computeMsdList method profiles else l

/-- The cutoff filter (source lines 334-339): a finite max_dt keeps the
entries with time at most the cutoff; inf keeps everything. -/
def cutoffFiltered (msdL : List (ℚ × ℚ)) : Option PyFloat → List (ℚ × ℚ)
  | some (PyFloat.val q) => msdL.filter (fun kv => kv.1 ≤ q)
  | _ => msdL

/-- Profile.calculate_msd (source lines 285-360).  With max_dt None the
default cutoff is a quarter of the last entry time, computed by indexing
msd[-1], an IndexError on the empty list, and no filtering is applied; a
finite max_dt filters; inf does not. -/
def calculate_msd (A : Analysis) (profiles : List Profile) (msd0 : Option (List (ℚ × ℚ)))
    (max_dt : Option PyFloat) (method : MsdMethod) : Except String MsdResult :=
  let msdL := resolveMsd profiles msd0 method
  match max_dt with
  | none =>
    match msdL.getLast? with
    | none => Except.error "IndexError: list index out of range"
    | some last => Except.ok (regressPhase A msdL (PyFloat.val (1/4 * last.1)))
  | some mv => Except.ok (regressPhase A (cutoffFiltered msdL (some mv)) mv)

/-- A concrete instantiation of the external routines, used to evaluate the
embedding on closed inputs; the claim theorems quantify over the routines. -/
def analysisDummy : Analysis :=
  { log := id, exp := id, linregress := fun _ _ => (0, 0, 0, 0, 0) }

/-! ## Claim-side vocabulary -/

/-- Stated from the claim C7 wording: every position with a defined coordinate
contributes it, including coordinates equal to zero. -/
def definedCoords (f : Position → Option ℚ) (tracks : List Track) : List ℚ :=
  tracks.flatMap (fun t => t.positions.filterMap f)

/-- Stated from the claim C9 wording: truthy glossed as defined (not NaN) and
nonzero. -/
def Flt.definedNonzero : Flt → Bool
  | Flt.nan => false
  | Flt.num q => decide (q ≠ 0)

/-- All (delta-t, value list) entries of all tracks of all profiles, in
iteration order. -/
def allEntries (profiles : List Profile) : List (ℚ × List ℚ) :=
  (profiles.flatMap (fun p => p.tracks)).flatMap (fun t => t.deltaT_displacements_sq)

/-- Stated from the claim C1 wording: the pooled squared displacements at a
given delta-t, concatenating the value lists of every track of every profile. -/
def pooledAt (profiles : List Profile) (k : ℚ) : List ℚ :=
  ((allEntries profiles).filter (fun kv => decide (kv.1 = k))).flatMap (fun kv => kv.2)

/-- Stated from the claim C6 wording: the start-type TeleportPoint recorded for
a track, if any; it exists exactly when the first position time is not zero
and the first position lies inside the shrunk box, and it carries the first
position time, x and y but the last position z. -/
def startPointOf (b : Box) (t : Track) : Option TeleportPoint :=
  match t.positions.head?, t.positions.getLast? with
  | some p0, some pl =>
    if p0.time_s ≠ 0 ∧ insideVol b p0.x p0.y p0.z = Except.ok true then
      some { x := p0.x, y := p0.y, z := pl.z, time := p0.time_s, track := t, start := true }
    else none
  | _, _ => none

/-- The end-type TeleportPoint recorded for a track, if any (source lines
257-260): the last position strictly before the experiment end and inside the
shrunk box. -/
def endPointOf (b : Box) (end_time : ℚ) (t : Track) : Option TeleportPoint :=
  match t.positions.getLast? with
  | some pl =>
    if pl.time_s < end_time ∧ insideVol b pl.x pl.y pl.z = Except.ok true then
      some { x := pl.x, y := pl.y, z := pl.z, time := pl.time_s, track := t, start := false }
    else none
  | none => none

/-! ## Concrete data for the closed theorems -/

/-- A position with defined coordinates, benign kinematics, at a given place
and time. -/
def mkPos (x0 y0 z0 : Option ℚ) (t0 : ℚ) : Position :=
  { x := x0, y := y0, z := z0, time_s := t0, speed := PyVal.num 1, turn := PyVal.num 1,
    roll := PyVal.num 1, instant_fmi := PyVal.num 1, total_displacement_squared := 0,
    meets_arrest_coeff_threshold := true }

/-- A track with benign scalar statistics, given positions and a given
delta-t dictionary. -/
def mkTrack (ps : List Position) (entries : List (ℚ × List ℚ)) : Track :=
  { positions := ps, displacement := Flt.num 5, duration_min := Flt.num 10,
    length := Flt.num 7, meander := Flt.num 1, broken := false,
    median_speed := Flt.num 1, median_turn := Flt.num 1,
    arrest_coefficient := Flt.num 0, deltaT_displacements_sq := entries }

/-- One track carrying the delta-t map 1 to [2, 4] and 2 to [8]. -/
def profsC1 : List Profile :=
  [{ tracks := [mkTrack [mkPos (some 1) (some 1) (some 1) 0] [(1, [2, 4]), (2, [8])]] }]

/-- One profile whose single track has a single observation, so its delta-t
map is empty (the external generator finds no pair i < j). -/
def profsC1e : List Profile :=
  [{ tracks := [mkTrack [mkPos (some 1) (some 1) (some 1) 0] []] }]

/-- A single track with a single observation and hence an empty delta-t map. -/
def profsC3 : List Profile :=
  [{ tracks := [mkTrack [mkPos (some 2) (some 2) (some 2) 0] []] }]

/-- A track of two positions. -/
def trkC5a : Track :=
  mkTrack [mkPos (some 1) (some 1) (some 1) 0, mkPos (some 2) (some 2) (some 2) 1] []

/-- A track of five positions. -/
def trkC5b : Track :=
  mkTrack [mkPos (some 1) (some 1) (some 1) 0, mkPos (some 2) (some 2) (some 2) 1,
    mkPos (some 3) (some 3) (some 3) 2, mkPos (some 4) (some 4) (some 4) 3,
    mkPos (some 5) (some 5) (some 5) 4] []

/-- A track resident from time 0, spatially interior at its start. -/
def trkC6a : Track :=
  mkTrack [mkPos (some 15) (some 15) (some 15) 0, mkPos (some 20) (some 20) (some 20) 100] []

/-- A track first observed at time 50 inside the volume; its first z is 14 but
its last z is 10. -/
def trkC6b : Track :=
  mkTrack [mkPos (some 15) (some 15) (some 14) 50, mkPos (some 10) (some 10) (some 10) 100] []

def profC6 : Profile := { tracks := [trkC6a, trkC6b] }

/-- The shrunk box the source computes for profC6 coordinates (all axes span
10 to 20, so low 11 and high 19 with the default margin). -/
def boxC6 : Box :=
  { x_low := 11, x_high := 19, y_low := 11, y_high := 19, z_low := 11, z_high := 19 }

/-- A track with an x coordinate exactly 0 on its first position; x values are
0, 10, 20, y and z values are 1, 2, 3. -/
def trkC7 : Track :=
  mkTrack [mkPos (some 0) (some 1) (some 1) 0, mkPos (some 10) (some 2) (some 2) 1,
    mkPos (some 20) (some 3) (some 3) 2] []

def profC7 : Profile := { tracks := [trkC7] }

/-- A position whose instantaneous FMI is NaN while the arrest threshold flag
holds. -/
def posC8 : Position :=
  { x := some 1, y := some 1, z := some 1, time_s := 0, speed := PyVal.num 1,
    turn := PyVal.num 1, roll := PyVal.num 1, instant_fmi := PyVal.nan,
    total_displacement_squared := 0, meets_arrest_coeff_threshold := true }

def profC8 : Profile := { tracks := [mkTrack [posC8] []] }

/-- A blebbing position: the arrest coefficient threshold flag is false. -/
def posC8b : Position :=
  { x := some 1, y := some 1, z := some 1, time_s := 1, speed := PyVal.num 2,
    turn := PyVal.num 2, roll := PyVal.num 2, instant_fmi := PyVal.num 2,
    total_displacement_squared := 0, meets_arrest_coeff_threshold := false }

def profC8w : Profile :=
  { tracks := [mkTrack [mkPos (some 1) (some 1) (some 1) 0, posC8b] []] }

/-- A track whose meander is NaN (truthy in Python, yet not defined). -/
def trkC9 : Track :=
  { positions := [mkPos (some 1) (some 1) (some 1) 0], displacement := Flt.num 5,
    duration_min := Flt.num 10, length := Flt.num 7, meander := Flt.nan, broken := false,
    median_speed := Flt.num 1, median_turn := Flt.num 1,
    arrest_coefficient := Flt.num (1/10), deltaT_displacements_sq := [] }

def profC9 : Profile := { tracks := [trkC9] }

/-- One track carrying the delta-t map 1 to [4] and 2 to [6, 10]. -/
def profsC10 : List Profile :=
  [{ tracks := [mkTrack [mkPos (some 1) (some 1) (some 1) 0] [(1, [4]), (2, [6, 10])]] }]

/-! ## Helper lemmas -/

theorem ok_bind {α β : Type} (a : α) (f : α → Except String β) :
    (Except.ok a : Except String α) >>= f = f a := rfl

theorem foldl_min_pos (l : List ℚ) : ∀ a : ℚ, 0 < l.foldl min a ↔ 0 < a ∧ ∀ x ∈ l, 0 < x := by
  induction l with
  | nil => simp
  | cons x xs ih =>
    intro a
    rw [List.foldl_cons, ih]
    simp only [lt_min_iff, List.forall_mem_cons]
    tauto

theorem dictGet_map_update (k0 : ℚ) (vs : List ℚ) (k : ℚ) :
    ∀ d : List (ℚ × List ℚ),
      dictGet (d.map (fun kv => if kv.1 = k0 then (kv.1, kv.2 ++ vs) else kv)) k
        = if k = k0 ∧ k ∈ d.map Prod.fst then dictGet d k ++ vs else dictGet d k := by
  intro d
  induction d with
  | nil => simp [dictGet]
  | cons kv rest ih =>
    have hfst : (if kv.1 = k0 then (kv.1, kv.2 ++ vs) else kv).1 = kv.1 := by
      by_cases h : kv.1 = k0 <;> simp [h]
    have hsnd : (if kv.1 = k0 then (kv.1, kv.2 ++ vs) else kv).2
        = if kv.1 = k0 then kv.2 ++ vs else kv.2 := by
      by_cases h : kv.1 = k0 <;> simp [h]
    simp only [List.map_cons, dictGet, hfst, hsnd, List.mem_cons, ih]
    by_cases hk : kv.1 = k
    · by_cases h0 : k = k0
      · simp [hk, h0]
      · have h0a : ¬ kv.1 = k0 := by rw [hk]; exact h0
        simp [hk, h0, h0a]
    · have hk2 : ¬ k = kv.1 := fun h => hk h.symm
      have hcond : (k = k0 ∧ (k = kv.1 ∨ k ∈ List.map Prod.fst rest))
          ↔ (k = k0 ∧ k ∈ List.map Prod.fst rest) :=
        and_congr_right (fun _ => or_iff_right hk2)
      rw [if_neg hk, if_congr hcond rfl rfl]
      simp only [if_neg hk]

theorem dictGet_append_new (k0 : ℚ) (vs : List ℚ) (k : ℚ) :
    ∀ d : List (ℚ × List ℚ), k0 ∉ d.map Prod.fst →
      dictGet (d ++ [(k0, vs)]) k = if k = k0 then dictGet d k ++ vs else dictGet d k := by
  intro d
  induction d with
  | nil =>
    intro _
    by_cases h : k = k0
    · simp [dictGet, h]
    · have h2 : ¬ k0 = k := fun hh => h hh.symm
      simp [dictGet, h, h2]
  | cons kv rest ih =>
    intro hmem
    have h1 : ¬ kv.1 = k0 := by
      intro h
      exact hmem (List.mem_cons.2 (Or.inl h.symm))
    have h2 : k0 ∉ rest.map Prod.fst := fun h => hmem (List.mem_cons.2 (Or.inr h))
    by_cases hk : kv.1 = k
    · have h3 : ¬ k = k0 := by
        intro h
        exact h1 (hk.trans h)
      simp [dictGet, hk, h3]
    · rw [List.cons_append]
      simp only [dictGet, if_neg hk]
      exact ih h2

theorem dictGet_dictExtend (d : List (ℚ × List ℚ)) (k0 : ℚ) (vs : List ℚ) (k : ℚ) :
    dictGet (dictExtend d k0 vs) k
      = if k = k0 then dictGet d k ++ vs else dictGet d k := by
  rw [dictExtend]
  by_cases hmem : k0 ∈ d.map Prod.fst
  · rw [if_pos hmem, dictGet_map_update]
    by_cases h : k = k0
    · rw [if_pos ⟨h, h ▸ hmem⟩, if_pos h]
    · rw [if_neg (fun hc => h hc.1), if_neg h]
  · rw [if_neg hmem, dictGet_append_new k0 vs k d hmem]

theorem dictGet_foldl_dictStep (es : List (ℚ × List ℚ)) :
    ∀ (d : List (ℚ × List ℚ)) (k : ℚ),
      dictGet (es.foldl dictStep d) k
        = dictGet d k ++ (es.filter (fun kv => decide (kv.1 = k))).flatMap Prod.snd := by
  induction es with
  | nil => simp
  | cons e es ih =>
    intro d k
    rw [List.foldl_cons, ih, dictStep, dictGet_dictExtend]
    by_cases h : e.1 = k
    · subst h
      simp [List.filter_cons]
    · have h2 : ¬ k = e.1 := fun hh => h hh.symm
      simp [List.filter_cons, h, h2]

theorem mem_keys_dictExtend (d : List (ℚ × List ℚ)) (k0 : ℚ) (vs : List ℚ) (k : ℚ) :
    k ∈ (dictExtend d k0 vs).map Prod.fst ↔ k ∈ d.map Prod.fst ∨ k = k0 := by
  rw [dictExtend]
  by_cases hmem : k0 ∈ d.map Prod.fst
  · rw [if_pos hmem]
    have hkeys : (d.map (fun kv => if kv.1 = k0 then (kv.1, kv.2 ++ vs) else kv)).map Prod.fst
        = d.map Prod.fst := by
      rw [List.map_map]
      apply List.map_congr_left
      intro kv _
      by_cases h : kv.1 = k0 <;> simp [h]
    rw [hkeys]
    constructor
    · exact Or.inl
    · rintro (h | h)
      · exact h
      · exact h ▸ hmem
  · rw [if_neg hmem]
    simp

theorem mem_keys_foldl_dictStep (es : List (ℚ × List ℚ)) :
    ∀ (d : List (ℚ × List ℚ)) (k : ℚ),
      k ∈ (es.foldl dictStep d).map Prod.fst
        ↔ k ∈ d.map Prod.fst ∨ ∃ kv ∈ es, kv.1 = k := by
  induction es with
  | nil => simp
  | cons e es ih =>
    intro d k
    rw [List.foldl_cons, dictStep, ih, mem_keys_dictExtend]
    constructor
    · rintro ((h | h) | h)
      · exact Or.inl h
      · exact Or.inr ⟨e, List.mem_cons_self e es, h.symm⟩
      · rcases h with ⟨kv, hkv, hk⟩
        exact Or.inr ⟨kv, List.mem_cons.2 (Or.inr hkv), hk⟩
    · rintro (h | ⟨kv, hkv, hk⟩)
      · exact Or.inl (Or.inl h)
      · rcases List.mem_cons.1 hkv with h | h
        · exact Or.inl (Or.inr (h ▸ hk).symm)
        · exact Or.inr ⟨kv, h, hk⟩

theorem nodup_keys_dictExtend (d : List (ℚ × List ℚ)) (k0 : ℚ) (vs : List ℚ)
    (h : (d.map Prod.fst).Nodup) : ((dictExtend d k0 vs).map Prod.fst).Nodup := by
  rw [dictExtend]
  by_cases hmem : k0 ∈ d.map Prod.fst
  · rw [if_pos hmem]
    have hkeys : (d.map (fun kv => if kv.1 = k0 then (kv.1, kv.2 ++ vs) else kv)).map Prod.fst
        = d.map Prod.fst := by
      rw [List.map_map]
      apply List.map_congr_left
      intro kv _
      by_cases hh : kv.1 = k0 <;> simp [hh]
    rw [hkeys]
    exact h
  · rw [if_neg hmem]
    simp only [List.map_append, List.map_cons, List.map_nil]
    rw [List.nodup_append]
    refine ⟨h, List.nodup_singleton k0, ?_⟩
    intro a ha hb
    rw [List.mem_singleton] at hb
    exact hmem (hb ▸ ha)

theorem nodup_keys_foldl_dictStep (es : List (ℚ × List ℚ)) :
    ∀ d : List (ℚ × List ℚ), (d.map Prod.fst).Nodup →
      ((es.foldl dictStep d).map Prod.fst).Nodup := by
  induction es with
  | nil => exact fun d h => h
  | cons e es ih =>
    intro d h
    rw [List.foldl_cons]
    exact ih (dictStep d e) (nodup_keys_dictExtend d e.1 e.2 h)

theorem foldl_tracks_flatten (ts : List Track) :
    ∀ d : List (ℚ × List ℚ),
      ts.foldl trackIntoDict d
        = (ts.flatMap (fun t => t.deltaT_displacements_sq)).foldl dictStep d := by
  induction ts with
  | nil => intro d; rfl
  | cons t ts ih =>
    intro d
    rw [List.foldl_cons, List.flatMap_cons, List.foldl_append, ih]
    rfl

theorem computeMsdDict_eq_foldl (profiles : List Profile) :
    computeMsdDict profiles = (allEntries profiles).foldl dictStep [] := by
  rw [computeMsdDict, allEntries]
  have hgen : ∀ (ps : List Profile) (d : List (ℚ × List ℚ)),
      ps.foldl profileIntoDict d
        = ((ps.flatMap (fun pr => pr.tracks)).flatMap
            (fun t => t.deltaT_displacements_sq)).foldl dictStep d := by
    intro ps
    induction ps with
    | nil => intro d; rfl
    | cons pr ps ih =>
      intro d
      rw [List.foldl_cons, List.flatMap_cons, List.flatMap_append, List.foldl_append,
        ih, profileIntoDict, foldl_tracks_flatten]
  exact hgen profiles []

theorem dictGet_computeMsdDict (profiles : List Profile) (k : ℚ) :
    dictGet (computeMsdDict profiles) k = pooledAt profiles k := by
  rw [computeMsdDict_eq_foldl, dictGet_foldl_dictStep, pooledAt]
  rfl

theorem mem_keys_computeMsdDict (profiles : List Profile) (k : ℚ) :
    k ∈ (computeMsdDict profiles).map Prod.fst
      ↔ ∃ kv ∈ allEntries profiles, kv.1 = k := by
  rw [computeMsdDict_eq_foldl, mem_keys_foldl_dictStep]
  simp

theorem keys_computeMsdList (profiles : List Profile) :
    (computeMsdList MsdMethod.allT profiles).map Prod.fst
      = sortedKeys (computeMsdDict profiles) := by
  rw [computeMsdList, List.map_map]
  exact List.map_id ((sortedKeys (computeMsdDict profiles)))

theorem regressPhase_of_pos (A : Analysis) (msdL : List (ℚ × ℚ)) (cutoff : PyFloat)
    (hne : msdL ≠ []) (hpos : ∀ kv ∈ msdL, 0 < kv.1 ∧ 0 < kv.2) :
    regressPhase A msdL cutoff = regressRecord A msdL cutoff := by
  match msdL, hne with
  | p0 :: rest, _ =>
    rw [regressPhase]
    rw [if_pos]
    constructor
    · rw [foldl_min_pos]
      refine ⟨(hpos p0 (List.mem_cons_self p0 rest)).1, ?_⟩
      intro x hx
      rcases List.mem_map.1 hx with ⟨kv, hkv, hk⟩
      exact hk ▸ (hpos kv (List.mem_cons.2 (Or.inr hkv))).1
    · rw [foldl_min_pos]
      refine ⟨(hpos p0 (List.mem_cons_self p0 rest)).2, ?_⟩
      intro x hx
      rcases List.mem_map.1 hx with ⟨kv, hkv, hk⟩
      exact hk ▸ (hpos kv (List.mem_cons.2 (Or.inr hkv))).2

theorem mem_filterStep (ts : List Track) (param : Option ℚ) (pred : Track → ℚ → Bool)
    (t : Track) :
    t ∈ (filterStep ts param pred).1
      ↔ t ∈ ts ∧ ∀ v, param = some v → v ≠ 0 → pred t v = true := by
  cases param with
  | none => simp [filterStep]
  | some v =>
    by_cases hv : v = 0
    · subst hv
      simp [filterStep]
    · simp only [filterStep, if_neg hv, List.mem_filter]
      constructor
      · rintro ⟨h1, h2⟩
        exact ⟨h1, fun v0 hv0 _ => by rw [← Option.some_inj.1 hv0]; exact h2⟩
      · rintro ⟨h1, h2⟩
        exact ⟨h1, h2 v rfl hv⟩

theorem length_flatMap_le {α β γ : Type} (l : List α) (f : α → List β) (g : α → List γ)
    (h : ∀ a ∈ l, (f a).length ≤ (g a).length) :
    (l.flatMap f).length ≤ (l.flatMap g).length := by
  induction l with
  | nil => simp
  | cons a l ih =>
    simp only [List.flatMap_cons, List.length_append]
    have h1 := h a (List.mem_cons_self a l)
    have h2 := ih (fun x hx => h x (List.mem_cons.2 (Or.inr hx)))
    omega

theorem length_flatMap_lt {α β γ : Type} (l : List α) (f : α → List β) (g : α → List γ)
    (h : ∀ a ∈ l, (f a).length ≤ (g a).length)
    (h2 : ∃ a ∈ l, (f a).length < (g a).length) :
    (l.flatMap f).length < (l.flatMap g).length := by
  induction l with
  | nil => simp at h2
  | cons a l ih =>
    simp only [List.flatMap_cons, List.length_append]
    have ha := h a (List.mem_cons_self a l)
    have hrest := length_flatMap_le l f g (fun x hx => h x (List.mem_cons.2 (Or.inr hx)))
    rcases h2 with ⟨b, hb, hblt⟩
    rcases List.mem_cons.1 hb with rfl | hb2
    · omega
    · have := ih (fun x hx => h x (List.mem_cons.2 (Or.inr hx))) ⟨b, hb2, hblt⟩
      omega

theorem length_filter_lt_of_mem {α : Type} (q : α → Bool) (l : List α) (a : α)
    (ha : a ∈ l) (hqa : q a = false) : (l.filter q).length < l.length := by
  induction l with
  | nil => simp at ha
  | cons x l ih =>
    rcases List.mem_cons.1 ha with rfl | hx
    · have := List.length_filter_le q l
      simp only [List.filter_cons, hqa, List.length_cons, if_neg (by simp : ¬ false = true)]
      omega
    · cases hq : q x
      · have := List.length_filter_le q l
        simp only [List.filter_cons, hq, List.length_cons,
          if_neg (by simp : ¬ false = true)]
        omega
      · have := ih hx
        simp only [List.filter_cons, hq, if_true, List.length_cons]
        omega

theorem map_filter_comp {α β : Type} (f : α → β) (q : β → Bool) (l : List α) :
    (l.filter (fun a => q (f a))).map f = (l.map f).filter q := by
  induction l with
  | nil => rfl
  | cons a l ih =>
    rw [List.map_cons, List.filter_cons, List.filter_cons]
    cases hq : q (f a)
    · simpa [hq] using ih
    · simpa [hq] using ih

theorem pure_eq_ok {α : Type} (a : α) : (pure a : Except String α) = Except.ok a := rfl

theorem insideVol_some (b : Box) (x y z : ℚ) :
    insideVol b (some x) (some y) (some z)
      = Except.ok
          (if x < b.x_low ∨ b.x_high < x then false
           else if y < b.y_low ∨ b.y_high < y then false
           else if z < b.z_low ∨ b.z_high < z then false
           else true) := by
  by_cases h1 : x < b.x_low ∨ b.x_high < x
  · simp [insideVol, h1]
  · by_cases h2 : y < b.y_low ∨ b.y_high < y
    · simp [insideVol, h1, h2]
    · by_cases h3 : z < b.z_low ∨ b.z_high < z
      · simp [insideVol, h1, h2, h3]
      · simp [insideVol, h1, h2, h3]

theorem lastTimesOf_ok (ts : List Track) (hpos : ∀ t ∈ ts, t.positions ≠ []) :
    ∃ l, lastTimesOf ts = Except.ok l ∧ l.length = ts.length := by
  induction ts with
  | nil => exact ⟨[], rfl, rfl⟩
  | cons t ts ih =>
    obtain ⟨pl, hpl⟩ : ∃ pl, t.positions.getLast? = some pl := by
      cases hgl : t.positions.getLast? with
      | none => exact absurd (List.getLast?_eq_none_iff.1 hgl) (hpos t (List.mem_cons_self t ts))
      | some pl => exact ⟨pl, rfl⟩
    obtain ⟨l, hl, hlen⟩ := ih (fun u hu => hpos u (List.mem_cons.2 (Or.inr hu)))
    refine ⟨pl.time_s :: l, ?_, by simp [hlen]⟩
    simp only [lastTimesOf, hpl, hl, ok_bind]

theorem teleportLoop_eq (b : Box) (et : ℚ) (ts : List Track)
    (hpos : ∀ t ∈ ts, t.positions ≠ [])
    (hdef : ∀ t ∈ ts, ∀ p ∈ t.positions, p.x.isSome ∧ p.y.isSome ∧ p.z.isSome) :
    teleportLoop b et ts
      = Except.ok (ts.filterMap (startPointOf b), ts.filterMap (endPointOf b et)) := by
  induction ts with
  | nil => rfl
  | cons t ts ih =>
    have hmem := List.mem_cons_self t ts
    obtain ⟨p0, hp0⟩ : ∃ p0, t.positions.head? = some p0 := by
      cases hh : t.positions.head? with
      | none => exact absurd (List.head?_eq_none_iff.1 hh) (hpos t hmem)
      | some p0 => exact ⟨p0, rfl⟩
    obtain ⟨pl, hpl⟩ : ∃ pl, t.positions.getLast? = some pl := by
      cases hgl : t.positions.getLast? with
      | none => exact absurd (List.getLast?_eq_none_iff.1 hgl) (hpos t hmem)
      | some pl => exact ⟨pl, rfl⟩
    have hd0 := hdef t hmem p0 (List.mem_of_mem_head? (Option.mem_def.2 hp0))
    have hdl := hdef t hmem pl (List.mem_of_getLast?_eq_some hpl)
    obtain ⟨x0, hx0⟩ := Option.isSome_iff_exists.1 hd0.1
    obtain ⟨y0, hy0⟩ := Option.isSome_iff_exists.1 hd0.2.1
    obtain ⟨z0, hz0⟩ := Option.isSome_iff_exists.1 hd0.2.2
    obtain ⟨x1, hx1⟩ := Option.isSome_iff_exists.1 hdl.1
    obtain ⟨y1, hy1⟩ := Option.isSome_iff_exists.1 hdl.2.1
    obtain ⟨z1, hz1⟩ := Option.isSome_iff_exists.1 hdl.2.2
    obtain ⟨v1, hv1⟩ : ∃ v, insideVol b p0.x p0.y p0.z = Except.ok v :=
      ⟨_, by rw [hx0, hy0, hz0]; exact insideVol_some b x0 y0 z0⟩
    obtain ⟨v2, hv2⟩ : ∃ v, insideVol b pl.x pl.y pl.z = Except.ok v :=
      ⟨_, by rw [hx1, hy1, hz1]; exact insideVol_some b x1 y1 z1⟩
    have ihh := ih (fun u hu => hpos u (List.mem_cons.2 (Or.inr hu)))
      (fun u hu => hdef u (List.mem_cons.2 (Or.inr hu)))
    simp only [teleportLoop, hp0, hpl, hv1, hv2, ihh, startPointOf, endPointOf,
      List.filterMap_cons, ok_bind, pure_eq_ok]
    by_cases ht : p0.time_s ≠ 0 <;> by_cases hte : pl.time_s < et <;>
      cases v1 <;> cases v2 <;>
      simp [ht, hte, ok_bind, pure_eq_ok]

/-! ## Claim theorems -/

/-- Claim C3, a code bug.  For an input consisting of a single track with only
one observation (no delta-t pairs, so an empty msd list), the spec promises
the fixed sentinel record; with max_dt left unspecified, as in the claim, the
code instead indexes msd[-1] on the empty list, raising IndexError.  The
adjacent branch with an explicit max_dt does return the sentinel, with exactly
the field values the claim lists, confirming that the sentinel was the intent
and the unguarded index is the slip. -/
theorem C3_sentinel_code_bug :
    calculate_msd analysisDummy profsC3 none none MsdMethod.allT
        = Except.error "IndexError: list index out of range"
      ∧ calculate_msd analysisDummy profsC3 none (some PyFloat.inf) MsdMethod.allT
          = Except.ok msdSentinel
      ∧ msdSentinel.slope = 0 ∧ msdSentinel.intercept = 3/10 ∧ msdSentinel.r = 0
      ∧ msdSentinel.p = 0 ∧ msdSentinel.stderr = 0
      ∧ msdSentinel.msd_time_cutoff = PyFloat.val 100
      ∧ msdSentinel.linearPlot = [] ∧ msdSentinel.linearTimes = [] := by
  refine ⟨?_, ?_, rfl, rfl, rfl, rfl, rfl, rfl, rfl, rfl⟩ <;>
    norm_num [calculate_msd, resolveMsd, computeMsdList, computeMsdDict, profileIntoDict,
      trackIntoDict, sortedKeys, dictGet, cutoffFiltered, regressPhase, profsC3, mkTrack,
      mkPos]

/-- Claim C4, confirmed.  Constructing the MSD list with max_dt infinite and
then keeping only the entries with delta-t at most X yields the same list as
constructing with max_dt equal to the finite X directly: the cutoff filter of
calculate_msd commutes with MSD construction, for every profile list and every
finite cutoff. -/
theorem C4_cutoff_filter_commutes (profiles : List Profile) (X : ℚ) :
    (cutoffFiltered (resolveMsd profiles none MsdMethod.allT) (some PyFloat.inf)).filter
        (fun kv => kv.1 ≤ X)
      = cutoffFiltered (resolveMsd profiles none MsdMethod.allT) (some (PyFloat.val X)) := rfl

/-- Claim C2 is false as stated: with the precomputed msd list [(1, 1), (2, 0)]
and max_dt infinite, the pair (1, 1) with positive delta-t and positive MSD
survives the cutoff filtering, yet calculate_msd returns the sentinel with
empty fitted-curve arrays instead of a regression result, because the source
requires the minima over ALL surviving pairs to be positive, not just one
surviving positive pair. -/
theorem C2_counterexample :
    ((1 : ℚ), (1 : ℚ)) ∈ cutoffFiltered (resolveMsd [] (some [(1, 1), (2, 0)]) MsdMethod.allT)
        (some PyFloat.inf)
      ∧ calculate_msd analysisDummy [] (some [(1, 1), (2, 0)]) (some PyFloat.inf) MsdMethod.allT
          = Except.ok msdSentinel
      ∧ msdSentinel.linearTimes = [] ∧ msdSentinel.linearPlot = [] := by
  refine ⟨?_, ?_, rfl, rfl⟩ <;>
    norm_num [calculate_msd, resolveMsd, cutoffFiltered, regressPhase, min_def]

/-- Claim C2, amended.  In calculate_msd, if after cutoff filtering the
surviving list F is nonempty and EVERY surviving pair has delta-t and MSD
positive (the claim said: at least one such pair), then the result is obtained
by log-transforming both axes, running the external least-squares linregress
on the log data, and returning its slope, intercept, r, p and stderr together
with the fitted curve rebuilt in linear space by exponentiating
slope times log delta-t plus intercept at each surviving delta-t. -/
theorem C2_regression_branch_amended (A : Analysis) (profiles : List Profile)
    (msd0 : Option (List (ℚ × ℚ))) (mv : PyFloat) (F : List (ℚ × ℚ))
    (hF : F = cutoffFiltered (resolveMsd profiles msd0 MsdMethod.allT) (some mv))
    (hne : F ≠ []) (hpos : ∀ kv ∈ F, 0 < kv.1 ∧ 0 < kv.2) :
    calculate_msd A profiles msd0 (some mv) MsdMethod.allT = Except.ok (regressRecord A F mv)
      ∧ (regressRecord A F mv).msd = F
      ∧ (regressRecord A F mv).msd_time_cutoff = mv
      ∧ (regressRecord A F mv).linearTimes = F.map Prod.fst
      ∧ ∀ sl ic rr pp se,
          A.linregress (F.map (fun kv => A.log kv.1)) (F.map (fun kv => A.log kv.2))
              = (sl, ic, rr, pp, se) →
            (regressRecord A F mv).slope = sl ∧ (regressRecord A F mv).intercept = ic
              ∧ (regressRecord A F mv).r = rr ∧ (regressRecord A F mv).p = pp
              ∧ (regressRecord A F mv).stderr = se
              ∧ (regressRecord A F mv).linearPlot
                  = F.map (fun kv => A.exp (A.log kv.1 * sl + ic)) := by
  have hmaps1 : (F.map Prod.fst).map A.log = F.map (fun kv => A.log kv.1) := by
    rw [List.map_map]; rfl
  have hmaps2 : (F.map Prod.snd).map A.log = F.map (fun kv => A.log kv.2) := by
    rw [List.map_map]; rfl
  refine ⟨?_, rfl, rfl, rfl, ?_⟩
  · simp only [calculate_msd, ← hF]
    rw [regressPhase_of_pos A F mv hne hpos]
  · intro sl ic rr pp se hlin
    rw [regressRecord, hmaps1, hmaps2, hlin]
    refine ⟨rfl, rfl, rfl, rfl, rfl, ?_⟩
    show (F.map (fun kv => A.log kv.1)).map (fun x => A.exp (x * sl + ic))
        = F.map (fun kv => A.exp (A.log kv.1 * sl + ic))
    simp only [List.map_map]
    rfl

/-- Witness for the amended claim C2 at a concrete input. -/
theorem C2_witness :
    calculate_msd analysisDummy [] (some [(1, 2), (2, 4)]) (some (PyFloat.val 3)) MsdMethod.allT
      = Except.ok (regressRecord analysisDummy [(1, 2), (2, 4)] (PyFloat.val 3)) :=
  (C2_regression_branch_amended analysisDummy [] (some [(1, 2), (2, 4)]) (PyFloat.val 3)
    [(1, 2), (2, 4)] (by decide) (by decide) (by decide)).1

/-- Claim C10, confirmed.  When calculate_msd is called with max_dt
unspecified and the computed msd list L is nonempty, the default cutoff of a
quarter of the largest delta-t is only reported in the msd_time_cutoff field
and is NOT applied as a filter: the returned msd list and the regression
inputs, hence the fitted curve, range over all of L.  The explicit finite
max_dt branch by contrast regresses over the filtered list. -/
theorem C10_default_cutoff_reported_not_applied (A : Analysis) (profiles : List Profile)
    (L : List (ℚ × ℚ)) (hL : L = computeMsdList MsdMethod.allT profiles)
    (lp : ℚ × ℚ) (hlp : L.getLast? = some lp)
    (hpos : ∀ kv ∈ L, 0 < kv.1 ∧ 0 < kv.2) :
    calculate_msd A profiles none none MsdMethod.allT
        = Except.ok (regressRecord A L (PyFloat.val (1/4 * lp.1)))
      ∧ (regressRecord A L (PyFloat.val (1/4 * lp.1))).msd = L
      ∧ (regressRecord A L (PyFloat.val (1/4 * lp.1))).msd_time_cutoff = PyFloat.val (1/4 * lp.1)
      ∧ (regressRecord A L (PyFloat.val (1/4 * lp.1))).linearTimes = L.map Prod.fst
      ∧ ∀ X : ℚ, calculate_msd A profiles none (some (PyFloat.val X)) MsdMethod.allT
          = Except.ok (regressPhase A (L.filter (fun kv => kv.1 ≤ X)) (PyFloat.val X)) := by
  have hne : L ≠ [] := by
    intro h
    rw [h] at hlp
    exact Option.noConfusion hlp
  refine ⟨?_, rfl, rfl, rfl, ?_⟩
  · simp only [calculate_msd, resolveMsd, ← hL, hlp]
    rw [regressPhase_of_pos A L _ hne hpos]
  · intro X
    simp only [calculate_msd, resolveMsd, ← hL, cutoffFiltered]

/-- Witness for claim C10 at a concrete input. -/
theorem C10_witness :
    calculate_msd analysisDummy profsC10 none none MsdMethod.allT
      = Except.ok (regressRecord analysisDummy [(1, 4), (2, 8)] (PyFloat.val (1/4 * 2))) := by
  have h := C10_default_cutoff_reported_not_applied analysisDummy profsC10 [(1, 4), (2, 8)]
    (by norm_num [computeMsdList, computeMsdDict, profileIntoDict, trackIntoDict,
      dictExtend, dictStep, sortedKeys, dictGet, npMean, profsC10, mkTrack,
      List.insertionSort, List.orderedInsert])
    (2, 8) (by decide) (by decide)
  exact h.1

/-- Claim C1 is false as stated: there is a nonempty profile list (a single
profile with a single one-observation track, whose delta-t dictionary is
empty) on which calculate_msd with method allT and no precomputed msd does not
return the merged-and-averaged list (here []) as msd at all: with max_dt
unspecified it raises IndexError. -/
theorem C1_counterexample :
    computeMsdList MsdMethod.allT profsC1e = []
      ∧ calculate_msd analysisDummy profsC1e none none MsdMethod.allT
          = Except.error "IndexError: list index out of range" := by
  constructor <;>
    norm_num [calculate_msd, resolveMsd, computeMsdList, computeMsdDict, profileIntoDict,
      trackIntoDict, sortedKeys, dictGet, profsC1e, mkTrack, mkPos]

/-- Claim C1, amended.  For every list of Profiles (with the Python dict
invariants: distinct keys within each track dictionary and nonempty value
lists), the msd list computed by calculate_msd with method allT and no
precomputed msd merges every track delta-t dictionary across all profiles
into one map keyed by delta-t with value lists concatenated: its delta-t keys
are sorted ascending and duplicate free, a delta-t appears exactly when some
track dictionary holds it, and the value at each delta-t is the arithmetic
mean of all pooled squared displacements at that delta-t.  Provided this list
is nonempty with all entries positive (otherwise the IndexError or sentinel
path is taken instead), it is also what the msd field of the returned record
holds. -/
theorem C1_msd_allT_merge_amended (profiles : List Profile)
    (hne : profiles ≠ [])
    (hkeys : ∀ pr ∈ profiles, ∀ t ∈ pr.tracks, (t.deltaT_displacements_sq.map Prod.fst).Nodup)
    (hpools : ∀ pr ∈ profiles, ∀ t ∈ pr.tracks, ∀ kv ∈ t.deltaT_displacements_sq, kv.2 ≠ []) :
    ((computeMsdList MsdMethod.allT profiles).map Prod.fst).Sorted (fun a b => a ≤ b)
      ∧ ((computeMsdList MsdMethod.allT profiles).map Prod.fst).Nodup
      ∧ (∀ k : ℚ, k ∈ (computeMsdList MsdMethod.allT profiles).map Prod.fst
          ↔ ∃ pr ∈ profiles, ∃ t ∈ pr.tracks, ∃ kv ∈ t.deltaT_displacements_sq, kv.1 = k)
      ∧ (∀ kv ∈ computeMsdList MsdMethod.allT profiles,
          pooledAt profiles kv.1 ≠ []
            ∧ kv.2 = (pooledAt profiles kv.1).sum / (pooledAt profiles kv.1).length)
      ∧ (computeMsdList MsdMethod.allT profiles ≠ [] →
          (∀ kv ∈ computeMsdList MsdMethod.allT profiles, 0 < kv.1 ∧ 0 < kv.2) →
          ∀ A : Analysis,
            (calculate_msd A profiles none none MsdMethod.allT).map (fun res => res.msd)
              = Except.ok (computeMsdList MsdMethod.allT profiles)) := by
  have hmemkeys : ∀ k : ℚ, k ∈ (computeMsdList MsdMethod.allT profiles).map Prod.fst
      ↔ ∃ kv ∈ allEntries profiles, kv.1 = k := by
    intro k
    rw [keys_computeMsdList, sortedKeys, List.mem_insertionSort, mem_keys_computeMsdDict]
  refine ⟨?_, ?_, ?_, ?_, ?_⟩
  · rw [keys_computeMsdList, sortedKeys]
    exact List.sorted_insertionSort (fun a b => a ≤ b) ((computeMsdDict profiles).map Prod.fst)
  · rw [keys_computeMsdList, sortedKeys, computeMsdDict_eq_foldl]
    exact ((List.perm_insertionSort (fun a b => a ≤ b) _).nodup_iff).2
      (nodup_keys_foldl_dictStep (allEntries profiles) [] (by simp))
  · intro k
    rw [hmemkeys]
    constructor
    · rintro ⟨kv, hkv, hk⟩
      rw [allEntries] at hkv
      rcases List.mem_flatMap.1 hkv with ⟨t, ht, hkv2⟩
      rcases List.mem_flatMap.1 ht with ⟨pr, hpr, ht2⟩
      exact ⟨pr, hpr, t, ht2, kv, hkv2, hk⟩
    · rintro ⟨pr, hpr, t, ht, kv, hkv, hk⟩
      refine ⟨kv, ?_, hk⟩
      rw [allEntries]
      exact List.mem_flatMap.2 ⟨t, List.mem_flatMap.2 ⟨pr, hpr, ht⟩, hkv⟩
  · intro kv hkv
    rw [computeMsdList] at hkv
    rcases List.mem_map.1 hkv with ⟨k, hk, hkeq⟩
    have hval : kv.2 = npMean (dictGet (computeMsdDict profiles) k) := by
      rw [← hkeq]
    have hfst : kv.1 = k := by rw [← hkeq]
    have hkmem : k ∈ (computeMsdDict profiles).map Prod.fst := by
      rw [sortedKeys] at hk
      exact (List.mem_insertionSort _).1 hk
    have hpool_ne : pooledAt profiles k ≠ [] := by
      rcases (mem_keys_computeMsdDict profiles k).1 hkmem with ⟨kv0, hkv0, hkeq0⟩
      have hv0 : kv0.2 ≠ [] := by
        rw [allEntries] at hkv0
        rcases List.mem_flatMap.1 hkv0 with ⟨t, ht, hkv02⟩
        rcases List.mem_flatMap.1 ht with ⟨pr, hpr, ht2⟩
        exact hpools pr hpr t ht2 kv0 hkv02
      rcases List.exists_mem_of_ne_nil kv0.2 hv0 with ⟨x, hx⟩
      apply List.ne_nil_of_mem (a := x)
      rw [pooledAt]
      refine List.mem_flatMap.2 ⟨kv0, ?_, hx⟩
      rw [List.mem_filter]
      exact ⟨hkv0, by simp [hkeq0]⟩
    rw [hfst, hval, dictGet_computeMsdDict, npMean]
    exact ⟨hpool_ne, rfl⟩
  · intro hne2 hpos A
    obtain ⟨lp, hlp⟩ : ∃ lp, (computeMsdList MsdMethod.allT profiles).getLast? = some lp := by
      cases hgl : (computeMsdList MsdMethod.allT profiles).getLast? with
      | none => exact absurd (List.getLast?_eq_none_iff.1 hgl) hne2
      | some lp => exact ⟨lp, rfl⟩
    simp only [calculate_msd, resolveMsd, hlp]
    rw [regressPhase_of_pos A _ _ hne2 hpos]
    rfl

/-- Witness for the amended claim C1 at a concrete input. -/
theorem C1_witness :
    profsC1 ≠ []
      ∧ ((computeMsdList MsdMethod.allT profsC1).map Prod.fst).Sorted (fun a b => a ≤ b)
      ∧ (calculate_msd analysisDummy profsC1 none none MsdMethod.allT).map (fun res => res.msd)
          = Except.ok (computeMsdList MsdMethod.allT profsC1) := by
  have h := C1_msd_allT_merge_amended profsC1 (by decide) (by decide) (by decide)
  have hL : computeMsdList MsdMethod.allT profsC1 = [(1, 3), (2, 8)] := by
    norm_num [computeMsdList, computeMsdDict, profileIntoDict, trackIntoDict, dictExtend,
      dictStep, sortedKeys, dictGet, npMean, profsC1, mkTrack,
      List.insertionSort, List.orderedInsert]
  refine ⟨by decide, h.1, h.2.2.2.2 ?_ ?_ analysisDummy⟩
  · rw [hL]
    exact List.cons_ne_nil _ _
  · rw [hL]
    decide

/-- Claim C5, confirmed.  Profile construction retains exactly the tracks
passing all active filters (a trim argument is active when it is a nonzero
number): displacement at least the threshold (inclusive, False on NaN),
observation count at least the threshold (inclusive), duration at least the
threshold (inclusive), arrest coefficient strictly below the threshold, and
NaN median speed and NaN median turn dropped.  In particular, with two tracks
of 2 and 5 positions and trim_observations 3, exactly the 2-position track is
excluded and the reported exclusion count is 1 out of 2. -/
theorem C5_filter_pipeline (tracks : List Track) (td to0 tdur ta : Option ℚ) :
    (∀ t : Track, t ∈ (profileInit tracks td to0 tdur ta).profile.tracks
      ↔ t ∈ tracks
        ∧ (∀ v, td = some v → v ≠ 0 → t.displacement.geQ v = true)
        ∧ (∀ v, to0 = some v → v ≠ 0 → v ≤ (t.positions.length : ℚ))
        ∧ (∀ v, tdur = some v → v ≠ 0 → t.duration_min.geQ v = true)
        ∧ (∀ v, ta = some v → v ≠ 0 → t.arrest_coefficient.ltQ v = true)
        ∧ t.median_speed.isnan = false
        ∧ t.median_turn.isnan = false)
      ∧ (profileInit [trkC5a, trkC5b] none (some 3) none none).profile.tracks = [trkC5b]
      ∧ (profileInit [trkC5a, trkC5b] none (some 3) none none).observations_log
          = some { excluded := 1, before := 2 } := by
  refine ⟨?_, ?_, ?_⟩
  · intro t
    simp only [profileInit, List.mem_filter, mem_filterStep, Bool.not_eq_true',
      decide_eq_true_eq]
    tauto
  · norm_num [profileInit, filterStep, trkC5a, trkC5b, mkTrack, mkPos, Flt.isnan]
  · norm_num [profileInit, filterStep, trkC5a, trkC5b, mkTrack, mkPos, Flt.isnan]

/-- Claim C8 is false as stated: a position whose instantaneous FMI is NaN and
whose arrest threshold flag holds contributes the NaN value to
collate_instantaneous_fmi, so not every returned value is defined; the source
checks only is-not-None for FMI, with no NaN check. -/
theorem C8_counterexample :
    collate_instantaneous_fmi profC8 = [PyVal.nan] ∧ PyVal.nan.isnan = true := by
  exact ⟨by decide, rfl⟩

/-- Claim C8, amended.  Every value returned by collate_speeds and
collate_turns comes from a position of a retained track whose value is defined
(neither None nor NaN) with the arrest threshold flag true; every value of
collate_instantaneous_fmi comes from a position whose value is not None (NaN
is allowed through) with the flag true.  Each returned list is at most as long
as the total position count, and strictly shorter when some position is
blebbing-flagged. -/
theorem C8_collate_filters_amended (pr : Profile) :
    (∀ v ∈ collate_speeds pr, ∃ t ∈ pr.tracks, ∃ p ∈ t.positions,
        p.speed = v ∧ v.isnull = false ∧ v.isnan = false
          ∧ p.meets_arrest_coeff_threshold = true)
      ∧ (∀ v ∈ collate_turns pr, ∃ t ∈ pr.tracks, ∃ p ∈ t.positions,
          p.turn = v ∧ v.isnull = false ∧ v.isnan = false
            ∧ p.meets_arrest_coeff_threshold = true)
      ∧ (∀ v ∈ collate_instantaneous_fmi pr, ∃ t ∈ pr.tracks, ∃ p ∈ t.positions,
          p.instant_fmi = v ∧ v.isnull = false ∧ p.meets_arrest_coeff_threshold = true)
      ∧ (collate_speeds pr).length ≤ totalPositions pr
      ∧ (collate_turns pr).length ≤ totalPositions pr
      ∧ (collate_instantaneous_fmi pr).length ≤ totalPositions pr
      ∧ ((∃ t ∈ pr.tracks, ∃ p ∈ t.positions, p.meets_arrest_coeff_threshold = false) →
          (collate_speeds pr).length < totalPositions pr
            ∧ (collate_turns pr).length < totalPositions pr
            ∧ (collate_instantaneous_fmi pr).length < totalPositions pr) := by
  have hmem : ∀ (fval : Position → PyVal) (q : Position → Bool) (v : PyVal),
      v ∈ pr.tracks.flatMap (fun t => ((t.positions.filter q).map fval)) →
        ∃ t ∈ pr.tracks, ∃ p ∈ t.positions, fval p = v ∧ q p = true := by
    intro fval q v hv
    rcases List.mem_flatMap.1 hv with ⟨t, ht, hv2⟩
    rcases List.mem_map.1 hv2 with ⟨p, hp, hfv⟩
    rcases List.mem_filter.1 hp with ⟨hpmem, hq⟩
    exact ⟨t, ht, p, hpmem, hfv, hq⟩
  have hlen : ∀ (fval : Position → PyVal) (q : Position → Bool),
      (pr.tracks.flatMap (fun t => ((t.positions.filter q).map fval))).length
        ≤ totalPositions pr := by
    intro fval q
    rw [totalPositions]
    apply length_flatMap_le
    intro t _
    rw [List.length_map]
    exact List.length_filter_le q t.positions
  have hstrict : ∀ (fval : Position → PyVal) (q : Position → Bool),
      (∀ p : Position, p.meets_arrest_coeff_threshold = false → q p = false) →
      (∃ t ∈ pr.tracks, ∃ p ∈ t.positions, p.meets_arrest_coeff_threshold = false) →
      (pr.tracks.flatMap (fun t => ((t.positions.filter q).map fval))).length
        < totalPositions pr := by
    rintro fval q hq ⟨t, ht, p, hp, hbleb⟩
    rw [totalPositions]
    apply length_flatMap_lt
    · intro u _
      rw [List.length_map]
      exact List.length_filter_le q u.positions
    · refine ⟨t, ht, ?_⟩
      rw [List.length_map]
      exact length_filter_lt_of_mem q t.positions p hp (hq p hbleb)
  refine ⟨?_, ?_, ?_,
    hlen (fun p => p.speed)
      (fun p => !p.speed.isnull && !p.speed.isnan && p.meets_arrest_coeff_threshold),
    hlen (fun p => p.turn)
      (fun p => !p.turn.isnull && !p.turn.isnan && p.meets_arrest_coeff_threshold),
    hlen (fun p => p.instant_fmi)
      (fun p => !p.instant_fmi.isnull && p.meets_arrest_coeff_threshold), ?_⟩
  · intro v hv
    have hv2 : v ∈ pr.tracks.flatMap (fun t => ((t.positions.filter
        (fun p => !p.speed.isnull && !p.speed.isnan
          && p.meets_arrest_coeff_threshold)).map (fun p => p.speed))) := hv
    rcases hmem _ _ v hv2 with ⟨t, ht, p, hp, hfv, hq⟩
    rw [Bool.and_eq_true, Bool.and_eq_true] at hq
    refine ⟨t, ht, p, hp, hfv, ?_, ?_, hq.2⟩
    · rw [← hfv]
      simpa using hq.1.1
    · rw [← hfv]
      simpa using hq.1.2
  · intro v hv
    have hv2 : v ∈ pr.tracks.flatMap (fun t => ((t.positions.filter
        (fun p => !p.turn.isnull && !p.turn.isnan
          && p.meets_arrest_coeff_threshold)).map (fun p => p.turn))) := hv
    rcases hmem _ _ v hv2 with ⟨t, ht, p, hp, hfv, hq⟩
    rw [Bool.and_eq_true, Bool.and_eq_true] at hq
    refine ⟨t, ht, p, hp, hfv, ?_, ?_, hq.2⟩
    · rw [← hfv]
      simpa using hq.1.1
    · rw [← hfv]
      simpa using hq.1.2
  · intro v hv
    have hv2 : v ∈ pr.tracks.flatMap (fun t => ((t.positions.filter
        (fun p => !p.instant_fmi.isnull && p.meets_arrest_coeff_threshold)).map
          (fun p => p.instant_fmi))) := hv
    rcases hmem _ _ v hv2 with ⟨t, ht, p, hp, hfv, hq⟩
    rw [Bool.and_eq_true] at hq
    refine ⟨t, ht, p, hp, hfv, ?_, hq.2⟩
    rw [← hfv]
    simpa using hq.1
  · intro hbleb
    refine ⟨?_, ?_, ?_⟩
    · exact hstrict (fun p => p.speed)
        (fun p => !p.speed.isnull && !p.speed.isnan && p.meets_arrest_coeff_threshold)
        (fun p hb => by simp [hb]) hbleb
    · exact hstrict (fun p => p.turn)
        (fun p => !p.turn.isnull && !p.turn.isnan && p.meets_arrest_coeff_threshold)
        (fun p hb => by simp [hb]) hbleb
    · exact hstrict (fun p => p.instant_fmi)
        (fun p => !p.instant_fmi.isnull && p.meets_arrest_coeff_threshold)
        (fun p hb => by simp [hb]) hbleb

/-- Witness for the amended claim C8: a profile with one good and one blebbing
position has strictly fewer collated values than positions. -/
theorem C8_witness :
    (collate_speeds profC8w).length < totalPositions profC8w
      ∧ (collate_instantaneous_fmi profC8w).length < totalPositions profC8w := by
  have h := (C8_collate_filters_amended profC8w).2.2.2.2.2.2 (by decide)
  exact ⟨h.1, h.2.2⟩

/-- Claim C9 is false as stated: a track whose meander is NaN is truthy in
Python, so collate_meanders returns the NaN value, which is not a defined
nonzero value; the claimed filter by defined-and-nonzero would drop it. -/
theorem C9_counterexample :
    collate_meanders profC9 = [Flt.nan]
      ∧ ((profC9.tracks.map (fun t => t.meander)).filter Flt.definedNonzero) = []
      ∧ Flt.nan.definedNonzero = false := by
  exact ⟨by decide, by decide, rfl⟩

/-- Claim C9, amended.  collate_meanders, collate_lengths and
collate_displacements return exactly the per-track attribute values that are
truthy under Python semantics (nonzero numbers and NaN; None and zero are
falsy), in retained-track order; in particular a track whose meander, length
or displacement is exactly zero contributes no entry. -/
theorem C9_collate_truthy_amended (pr : Profile) :
    collate_meanders pr = (pr.tracks.map (fun t => t.meander)).filter Flt.pyTruthy
      ∧ collate_lengths pr = (pr.tracks.map (fun t => t.length)).filter Flt.pyTruthy
      ∧ collate_displacements pr
          = (pr.tracks.map (fun t => t.displacement)).filter Flt.pyTruthy
      ∧ Flt.num 0 ∉ collate_meanders pr
      ∧ Flt.num 0 ∉ collate_lengths pr
      ∧ Flt.num 0 ∉ collate_displacements pr := by
  have h1 : collate_meanders pr = (pr.tracks.map (fun t => t.meander)).filter Flt.pyTruthy := by
    unfold collate_meanders
    exact map_filter_comp (fun t => t.meander) Flt.pyTruthy pr.tracks
  have h2 : collate_lengths pr = (pr.tracks.map (fun t => t.length)).filter Flt.pyTruthy := by
    unfold collate_lengths
    exact map_filter_comp (fun t => t.length) Flt.pyTruthy pr.tracks
  have h3 : collate_displacements pr
      = (pr.tracks.map (fun t => t.displacement)).filter Flt.pyTruthy := by
    unfold collate_displacements
    exact map_filter_comp (fun t => t.displacement) Flt.pyTruthy pr.tracks
  have hz : ∀ l : List Flt, Flt.num 0 ∉ l.filter Flt.pyTruthy := by
    intro l hmem
    have := (List.mem_filter.1 hmem).2
    simp [Flt.pyTruthy] at this
  exact ⟨h1, h2, h3, h1 ▸ hz _, h2 ▸ hz _, h3 ▸ hz _⟩

/-- Claim C7 is false as stated: the source collects only truthy coordinates,
so a defined coordinate equal to 0 does not contribute.  On a track with x
values 0, 10 and 20 the claimed box edge over all defined coordinates would be
0 + 0.10 (20 - 0) = 2, but the source computes x_low = 10 + 0.10 (20 - 10)
= 11, because the 0 coordinate is dropped by the truthiness filter. -/
theorem C7_counterexample :
    pyMin (definedCoords (fun p => p.x) profC7.tracks) = Except.ok 0
      ∧ pyMax (definedCoords (fun p => p.x) profC7.tracks) = Except.ok 20
      ∧ (estimate_box profC7.tracks (1/10)).map (fun b => b.x_low) = Except.ok 11
      ∧ (11 : ℚ) ≠ 0 + (1/10) * (20 - 0) := by
  refine ⟨?_, ?_, ?_, by norm_num⟩
  · norm_num [definedCoords, pyMin, profC7, trkC7, mkTrack, mkPos, min_def,
      List.filterMap_cons, List.filterMap_nil]
  · norm_num [definedCoords, pyMax, profC7, trkC7, mkTrack, mkPos, max_def,
      List.filterMap_cons, List.filterMap_nil]
  · norm_num [estimate_box, coordsBy, pyMin, pyMax, profC7, trkC7, mkTrack, mkPos,
      ok_bind, Except.map, min_def, max_def, List.filterMap_cons, List.filterMap_nil]

/-- Claim C7, amended.  Teleport analysis estimates the volume per axis from
the truthy coordinates (defined AND nonzero; zeros and undefined values are
dropped by the Python truthiness filter) across all retained tracks, taking
per-axis min and max and shrinking inward by the margin fraction:
low = min + margin (max - min) and high = max - margin (max - min). -/
theorem C7_box_truthy_amended (tracks : List Track) (margin : ℚ)
    (mx Mx my My mz Mz : ℚ)
    (hmx : pyMin (coordsBy (fun p => p.x) tracks) = Except.ok mx)
    (hMx : pyMax (coordsBy (fun p => p.x) tracks) = Except.ok Mx)
    (hmy : pyMin (coordsBy (fun p => p.y) tracks) = Except.ok my)
    (hMy : pyMax (coordsBy (fun p => p.y) tracks) = Except.ok My)
    (hmz : pyMin (coordsBy (fun p => p.z) tracks) = Except.ok mz)
    (hMz : pyMax (coordsBy (fun p => p.z) tracks) = Except.ok Mz) :
    estimate_box tracks margin
      = Except.ok
          { x_low := mx + margin * (Mx - mx), x_high := Mx - margin * (Mx - mx),
            y_low := my + margin * (My - my), y_high := My - margin * (My - my),
            z_low := mz + margin * (Mz - mz), z_high := Mz - margin * (Mz - mz) } := by
  simp only [estimate_box, hmx, hMx, hmy, hMy, hmz, hMz, ok_bind]

/-- Witness for the amended claim C7 at a concrete input. -/
theorem C7_witness :
    estimate_box profC7.tracks (1/10)
      = Except.ok { x_low := 11, x_high := 19, y_low := 6/5, y_high := 14/5,
                    z_low := 6/5, z_high := 14/5 } := by
  have h := C7_box_truthy_amended profC7.tracks (1/10) 10 20 1 3 1 3
    (by norm_num [coordsBy, pyMin, profC7, trkC7, mkTrack, mkPos, min_def,
      List.filterMap_cons, List.filterMap_nil])
    (by norm_num [coordsBy, pyMax, profC7, trkC7, mkTrack, mkPos, max_def,
      List.filterMap_cons, List.filterMap_nil])
    (by norm_num [coordsBy, pyMin, profC7, trkC7, mkTrack, mkPos, min_def,
      List.filterMap_cons, List.filterMap_nil])
    (by norm_num [coordsBy, pyMax, profC7, trkC7, mkTrack, mkPos, max_def,
      List.filterMap_cons, List.filterMap_nil])
    (by norm_num [coordsBy, pyMin, profC7, trkC7, mkTrack, mkPos, min_def,
      List.filterMap_cons, List.filterMap_nil])
    (by norm_num [coordsBy, pyMax, profC7, trkC7, mkTrack, mkPos, max_def,
      List.filterMap_cons, List.filterMap_nil])
  exact h.trans (by norm_num)

/-- Claim C6, confirmed.  For every retained track, a start-type TeleportPoint
is recorded exactly when its first position has time not equal to 0 and lies
inside the margin-shrunk box (that is what startPointOf states, and the
teleport_starts list is exactly the tracks filtered through it, in order);
the recorded point carries the first position time, x and y but the LAST
position z.  A track whose first position is at time 0 is never flagged, even
when spatially interior. -/
theorem C6_teleport_starts (pr : Profile) (margin : ℚ) (b : Box)
    (hbox : estimate_box pr.tracks margin = Except.ok b)
    (htr : pr.tracks ≠ [])
    (hpos : ∀ t ∈ pr.tracks, t.positions ≠ [])
    (hdef : ∀ t ∈ pr.tracks, ∀ p ∈ t.positions, p.x.isSome ∧ p.y.isSome ∧ p.z.isSome) :
    (analyse_teleportations pr margin).map (fun r => r.teleport_starts)
        = Except.ok (pr.tracks.filterMap (startPointOf b))
      ∧ ∀ t ∈ pr.tracks, ∀ p0, t.positions.head? = some p0 → p0.time_s = 0 →
          startPointOf b t = none := by
  obtain ⟨l, hl, hlen⟩ := lastTimesOf_ok pr.tracks hpos
  obtain ⟨et, het⟩ : ∃ et, pyMax l = Except.ok et := by
    cases l with
    | nil =>
      exfalso
      apply htr
      have h0 : pr.tracks.length = 0 := by simpa using hlen.symm
      exact List.length_eq_zero.1 h0
    | cons a rest => exact ⟨_, rfl⟩
  constructor
  · simp only [analyse_teleportations, hbox, ok_bind, hl, het,
      teleportLoop_eq b et pr.tracks hpos hdef, Except.map]
  · intro t ht p0 hp0 h0
    obtain ⟨pl, hpl⟩ : ∃ pl, t.positions.getLast? = some pl := by
      cases hgl : t.positions.getLast? with
      | none => exact absurd (List.getLast?_eq_none_iff.1 hgl) (hpos t ht)
      | some pl => exact ⟨pl, rfl⟩
    simp only [startPointOf, hp0, hpl]
    rw [if_neg]
    rintro ⟨hcond, _⟩
    exact hcond h0

/-- Witness for claim C6 at a concrete input: the time-50 track is flagged
with the last position z, the time-0 track is not flagged. -/
theorem C6_witness :
    (analyse_teleportations profC6 (1/10)).map (fun r => r.teleport_starts)
      = Except.ok [{ x := some 15, y := some 15, z := some 10, time := 50,
                     track := trkC6b, start := true }] := by
  have h := C6_teleport_starts profC6 (1/10) boxC6
    (by norm_num [estimate_box, coordsBy, pyMin, pyMax, profC6, trkC6a, trkC6b, mkTrack,
      mkPos, ok_bind, boxC6, min_def, max_def, List.filterMap_cons, List.filterMap_nil])
    (by decide) (by decide) (by decide)
  exact h.1.trans (by decide)

end Motility
